import Mathlib

/-!
Verification of the write-ahead-log filesystem tool in `src/project.c`.

The persistent disk image is modelled as a byte-addressed memory
`Bytes := Nat → Nat`; every load of a `uint8_t` cell applies `% 256`
(the cells hold machine bytes) and every store truncates with `% 256`.
Multi-byte integer fields (`uint16_t`, `uint32_t`) are read and written
little-endian, matching the C struct layout on the target platform.
Each C function is translated to a pure state-passing function on the
disk image; a function that can fail additionally returns a flag or an
`Option`.  `time(NULL)` is passed in as an explicit parameter `now`
(the C source calls it three times during one create; the calls are
modelled as returning the same instant).
-/

/-! ## Constants from project.c -/

def BLOCK_SIZE : Nat := 4096
def INODE_SIZE : Nat := 128
def NAME_LEN : Nat := 28
def FS_MAGIC : Nat := 0x56534653
def JOURNAL_MAGIC : Nat := 0x4A524E4C
def REC_DATA : Nat := 0xD0DA
def REC_COMMIT : Nat := 0xC0DE
def JOURNAL_BLOCKS : Nat := 16

/-- Total byte capacity of the journal region
(`JOURNAL_BLOCKS * BLOCK_SIZE` in the C guard). -/
def JOURNAL_CAPACITY : Nat := JOURNAL_BLOCKS * BLOCK_SIZE

/-- The C constant `sizeof(struct journal_header)` : magic(4) + nbytes_used(4). -/
def JOURNAL_HEADER_SIZE : Nat := 8

/-- The C constant `sizeof(struct data_record)` : rec_header(4) + block_no(4) + data(4096). -/
def DATA_RECORD_SIZE : Nat := 4104

/-- The C constant `sizeof(struct commit_record)` : rec_header(4) only. -/
def COMMIT_RECORD_SIZE : Nat := 4

/-! ## Byte-addressed memory -/

/-- A byte-addressed memory (the disk image, or an in-memory block buffer). -/
abbrev Bytes := Nat → Nat

/-- Byte `i` of the little-endian encoding of `v`. -/
def byteOf (v i : Nat) : Nat := v / 256 ^ i % 256

/-- Load one `uint8_t`. -/
def readU8 (m : Bytes) (a : Nat) : Nat := m a % 256

/-- Load a little-endian `uint16_t`. -/
def readU16 (m : Bytes) (a : Nat) : Nat :=
  readU8 m a + 256 * readU8 m (a + 1)

/-- Load a little-endian `uint32_t`. -/
def readU32 (m : Bytes) (a : Nat) : Nat :=
  readU8 m a + 256 * readU8 m (a + 1) + 65536 * readU8 m (a + 2) +
    16777216 * readU8 m (a + 3)

/-- Copy `len` bytes of `src` into `m` at address `a` (`memcpy` / a raw
`write` of a buffer); each stored cell is a byte. -/
def writeBytes (m : Bytes) (a len : Nat) (src : Bytes) : Bytes :=
  fun x => if a ≤ x ∧ x < a + len then src (x - a) % 256 else m x

/-- Store a little-endian `uint32_t`. -/
def writeU32 (m : Bytes) (a v : Nat) : Bytes :=
  writeBytes m a 4 (fun i => byteOf v i)

/-! ## Block store (`read_block` / `write_block`) -/

/-- Model of `read_block(fd, blk, buf)`: the 4096-byte buffer holding block `blk`. -/
def read_block (d : Bytes) (blk : Nat) : Bytes :=
  fun i => d (blk * BLOCK_SIZE + i) % 256

/-- Model of `write_block(fd, blk, buf)`. -/
def write_block (d : Bytes) (blk : Nat) (buf : Bytes) : Bytes :=
  writeBytes d (blk * BLOCK_SIZE) BLOCK_SIZE buf

/-! ## Bitmap allocator -/

/-- Loop body of `bitmap_find_free`: test bits `i, i+1, ...` with at most
`remaining` positions left (the C `for` loop from `i` to `max` with
`remaining = max - i`). -/
def bitmap_find_free_aux (bmap : Bytes) (i : Nat) : Nat → Option Nat
  | 0 => none
  | remaining + 1 =>
    if bmap (i / 8) &&& (1 <<< (i % 8)) = 0 then some i
    else bitmap_find_free_aux bmap (i + 1) remaining

/-- Model of `bitmap_find_free(bmap, max)`: first clear bit in `0..max`, else none
(the C function returns `-1`). -/
def bitmap_find_free (bmap : Bytes) (max : Nat) : Option Nat :=
  bitmap_find_free_aux bmap 0 max

/-- Model of `bitmap_set(bmap, idx)` on an in-memory copy of the bitmap block. -/
def bitmap_set (bmap : Bytes) (idx : Nat) : Bytes :=
  fun j => if j = idx / 8 then bmap (idx / 8) ||| (1 <<< (idx % 8)) else bmap j

/-! ## Superblock -/

/-- The C `struct superblock` (the fields the program uses). -/
structure Superblock where
  magic : Nat
  block_size : Nat
  total_blocks : Nat
  inode_count : Nat
  journal_block : Nat
  inode_bitmap : Nat
  data_bitmap : Nat
  inode_start : Nat
  data_start : Nat
deriving DecidableEq

/-- Model of `read_superblock`: decode block 0 and validate the magic
(`exit(1)` on mismatch is modelled as `none`). -/
def read_superblock (d : Bytes) : Option Superblock :=
  let sb : Superblock :=
    { magic := readU32 d 0
      block_size := readU32 d 4
      total_blocks := readU32 d 8
      inode_count := readU32 d 12
      journal_block := readU32 d 16
      inode_bitmap := readU32 d 20
      data_bitmap := readU32 d 24
      inode_start := readU32 d 28
      data_start := readU32 d 32 }
  if sb.magic = FS_MAGIC then some sb else none

/-! ## Journal management -/

/-- Write the 8-byte `struct journal_header` at the start of the journal
region (both stores in the C write the whole struct). -/
def write_journal_header (d : Bytes) (jbase magic used : Nat) : Bytes :=
  writeU32 (writeU32 d jbase magic) (jbase + 4) used

/-- Model of `init_journal_if_needed`. -/
def init_journal_if_needed (d : Bytes) (sb : Superblock) : Bytes :=
  let jbase := sb.journal_block * BLOCK_SIZE
  if readU32 d jbase = JOURNAL_MAGIC then d
  else write_journal_header d jbase JOURNAL_MAGIC JOURNAL_HEADER_SIZE

/-- Model of `append_to_journal(fd, sb, record, size)`: returns the new disk and a
success flag (`false` models the C `return -1` with the disk untouched).
On success the record bytes are written at offset `nbytes_used` inside the
journal region and the header is rewritten with the magic as read and
`nbytes_used + size`. -/
def append_to_journal (d : Bytes) (sb : Superblock) (record : Bytes)
    (size : Nat) : Bytes × Bool :=
  let jbase := sb.journal_block * BLOCK_SIZE
  let magic := readU32 d jbase
  let used := readU32 d (jbase + 4)
  if used + size > JOURNAL_BLOCKS * BLOCK_SIZE then (d, false)
  else
    let d1 := writeBytes d (jbase + used) size record
    (write_journal_header d1 jbase magic (used + size), true)

/-! ## Journal record images -/

/-- Byte image of a `struct data_record` with the given target block
number and 4096-byte payload. -/
def data_record_bytes (block_no : Nat) (payload : Bytes) : Bytes :=
  fun i =>
    if i < 2 then byteOf REC_DATA i
    else if i < 4 then byteOf DATA_RECORD_SIZE (i - 2)
    else if i < 8 then byteOf block_no (i - 4)
    else payload (i - 8)

/-- Byte image of a `struct commit_record`. -/
def commit_record_bytes : Bytes :=
  fun i =>
    if i < 2 then byteOf REC_COMMIT i
    else byteOf COMMIT_RECORD_SIZE (i - 2)

/-! ## Inode and dirent images -/

/-- Byte image of a 128-byte `struct inode` (padding zeroed, as with the
`= {0}` initializer in the source). -/
def inode_bytes (ty links size : Nat) (direct : Nat → Nat)
    (ctime mtime : Nat) : Bytes :=
  fun i =>
    if i < 2 then byteOf ty i
    else if i < 4 then byteOf links (i - 2)
    else if i < 8 then byteOf size (i - 4)
    else if i < 40 then byteOf (direct ((i - 8) / 4)) ((i - 8) % 4)
    else if i < 44 then byteOf ctime (i - 40)
    else if i < 48 then byteOf mtime (i - 44)
    else 0

/-- The 28-byte `name` field of a new dirent:
`strncpy(de.name, filename, NAME_LEN - 1)` followed by
`de.name[NAME_LEN - 1] = 0`, for a filename given as the list of its
(non-NUL) character codes. -/
def dirent_name_bytes (filename : List Nat) : Bytes :=
  fun i => if i < NAME_LEN - 1 then filename.getD i 0 % 256 else 0

/-- Byte image of the 32-byte dirent written by `cmd_create`. -/
def dirent_bytes (ino : Nat) (filename : List Nat) : Bytes :=
  fun i => if i < 4 then byteOf ino i else dirent_name_bytes filename (i - 4)

/-! ## cmd_create -/

/-- Outcome of `cmd_create`: success, `die("no free inode")`, or an
aborted run after `append_to_journal` reported a full journal. -/
inductive CreateStatus where
  | ok
  | noFreeInode
  | journalFull
deriving DecidableEq

/-- Model of `cmd_create(fd, sb, filename)`, returning the final disk image and
the outcome.  Every failing path returns the disk exactly as it was at
the point the C function stopped (records appended by earlier successful
`append_to_journal` calls of the same run remain). -/
def cmd_create (d0 : Bytes) (sb : Superblock) (filename : List Nat)
    (now : Nat) : Bytes × CreateStatus :=
  let d := init_journal_if_needed d0 sb
  let inode_bmap := read_block d sb.inode_bitmap
  let _data_bmap := read_block d sb.data_bitmap
  match bitmap_find_free inode_bmap 64 with
  | none => (d, CreateStatus.noFreeInode)
  | some new_ino =>
    let new_inode_bmap := bitmap_set inode_bmap new_ino
    let inode_block_buf := read_block d sb.inode_start
    let dir_block := read_block d (readU32 inode_block_buf 8)
    let new_inode := inode_bytes 1 1 0 (fun _ => 0) now now
    let inode_block_num := sb.inode_start + new_ino / 32
    let inode_offset := new_ino % 32 * INODE_SIZE
    let new_inode_block :=
      writeBytes (read_block d inode_block_num) inode_offset INODE_SIZE new_inode
    let entries := readU32 inode_block_buf 4 / 32
    let new_dir_block :=
      writeBytes dir_block (entries * 32) 32 (dirent_bytes new_ino filename)
    let new_root_inode_block :=
      writeU32 (writeU32 inode_block_buf 4 (readU32 inode_block_buf 4 + 32))
        44 now
    let r1 := append_to_journal d sb
      (data_record_bytes sb.inode_bitmap new_inode_bmap) DATA_RECORD_SIZE
    if r1.2 = false then (r1.1, CreateStatus.journalFull) else
    let r2 := append_to_journal r1.1 sb
      (data_record_bytes inode_block_num new_inode_block) DATA_RECORD_SIZE
    if r2.2 = false then (r2.1, CreateStatus.journalFull) else
    let r3 := append_to_journal r2.1 sb
      (data_record_bytes (readU32 inode_block_buf 8) new_dir_block)
      DATA_RECORD_SIZE
    if r3.2 = false then (r3.1, CreateStatus.journalFull) else
    let r4 := append_to_journal r3.1 sb
      (data_record_bytes sb.inode_start new_root_inode_block) DATA_RECORD_SIZE
    if r4.2 = false then (r4.1, CreateStatus.journalFull) else
    let r5 := append_to_journal r4.1 sb commit_record_bytes COMMIT_RECORD_SIZE
    if r5.2 = false then (r5.1, CreateStatus.journalFull) else
    (r5.1, CreateStatus.ok)

/-! ## cmd_install -/

/-- The replay loop of `cmd_install`: scan records from `pos` up to
`used`, returning the final disk and whether the loop broke out on an
unrecognized record type.  `fuel` bounds the iteration count (the C
`while` loop advances `pos` by each record's size field; with every
record size at least 1 the loop runs at most `used` times, and a
zero-size record would make the C loop spin forever — a case outside
every claim considered here). -/
def install_scan : Nat → Bytes → Nat → Nat → Nat → Bool → Bytes × Bool
  | 0, d, _, _, _, _ => (d, false)
  | fuel + 1, d, jbase, used, pos, in_transaction =>
    if pos < used then
      let ty := readU16 d (jbase + pos)
      let sz := readU16 d (jbase + pos + 2)
      if ty = REC_DATA then
        let block_no := readU32 d (jbase + pos + 4)
        let payload : Bytes := fun i => d (jbase + pos + 8 + i)
        let d1 := if in_transaction then write_block d block_no payload else d
        install_scan fuel d1 jbase used (pos + sz) in_transaction
      else if ty = REC_COMMIT then
        -- the C sets in_transaction = 1, reads the commit record,
        -- advances pos, then sets in_transaction = 0 again
        install_scan fuel d jbase used (pos + sz) false
      else
        (d, true)  -- unknown record type: break out of the loop
    else (d, false)

/-- Model of `cmd_install(fd, sb)`: `none` models `exit(1)` on a bad journal
magic.  On an empty journal the function returns before the final header
write; otherwise it runs the scan loop and then rewrites the journal
header with `nbytes_used = sizeof(jh)`, corruption break or not. -/
def cmd_install (d : Bytes) (sb : Superblock) : Option Bytes :=
  let jbase := sb.journal_block * BLOCK_SIZE
  let magic := readU32 d jbase
  let used := readU32 d (jbase + 4)
  if magic ≠ JOURNAL_MAGIC then none
  else if used = JOURNAL_HEADER_SIZE then some d
  else
    let s := install_scan used d jbase used JOURNAL_HEADER_SIZE false
    some (write_journal_header s.1 jbase magic JOURNAL_HEADER_SIZE)

/-! ## A concrete formatted image (for concrete runs of the commands) -/

/-- The all-zero disk. -/
def zeros : Bytes := fun _ => 0

/-- The superblock of the standard layout from the image format:
journal at block 1, inode bitmap 17, data bitmap 18, inode table 19,
data region 21. -/
def sb0 : Superblock :=
  { magic := FS_MAGIC
    block_size := 4096
    total_blocks := 85
    inode_count := 64
    journal_block := 1
    inode_bitmap := 17
    data_bitmap := 18
    inode_start := 19
    data_start := 21 }

/-- A freshly formatted image: valid superblock, initialized empty
journal, inode 0 (the root directory, `direct[0] = 21`, size 0)
allocated, everything else zero. -/
def img0 : Bytes :=
  let d := writeU32 zeros 0 FS_MAGIC
  let d := writeU32 d 4 4096
  let d := writeU32 d 8 85
  let d := writeU32 d 12 64
  let d := writeU32 d 16 1
  let d := writeU32 d 20 17
  let d := writeU32 d 24 18
  let d := writeU32 d 28 19
  let d := writeU32 d 32 21
  let d := writeU32 d (1 * BLOCK_SIZE) JOURNAL_MAGIC
  let d := writeU32 d (1 * BLOCK_SIZE + 4) JOURNAL_HEADER_SIZE
  let d := writeBytes d (17 * BLOCK_SIZE) 1 (fun _ => 1)
  let d := writeBytes d (19 * BLOCK_SIZE) INODE_SIZE
    (inode_bytes 2 1 0 (fun j => if j = 0 then 21 else 0) 0 0)
  d

/-- The character codes of the filename "foo.txt". -/
def fooName : List Nat := [102, 111, 111, 46, 116, 120, 116]

/-- A 30-character filename (length ≥ 28, so it gets truncated). -/
def longName : List Nat :=
  [97, 98, 99, 100, 101, 102, 103, 104, 105, 106, 107, 108, 109, 110, 111,
   112, 113, 114, 115, 116, 117, 118, 119, 120, 121, 122, 48, 49, 50, 51]

/-- The image after one `create foo.txt` on the fresh image: the journal
holds one complete transaction (four data records and a commit). -/
def d1 : Bytes := (cmd_create img0 sb0 fooName 0).1

/-- The image `d1` after a second `create foo.txt`. -/
def d2 : Bytes := (cmd_create d1 sb0 fooName 0).1

/-- The image `d2` after a third `create foo.txt`: journal `bytes_used` is
`8 + 3*16420 = 49268`; a fourth whole transaction no longer fits. -/
def d3 : Bytes := (cmd_create d2 sb0 fooName 0).1

/-- The image produced by running `install` on `d1`. -/
def d1i : Bytes := (cmd_install d1 sb0).getD zeros

/-- The image `img0` with `bytes_used = 12` and a single record of unrecognized
type `0xBEEF` at journal offset 8. -/
def imgCorrupt : Bytes :=
  writeBytes (writeU32 img0 (1 * BLOCK_SIZE + 4) 12) (1 * BLOCK_SIZE + 8) 2
    (fun i => byteOf 0xBEEF i)

/-- The image produced by running `install` on `imgCorrupt`. -/
def imgCorruptAfter : Bytes := (cmd_install imgCorrupt sb0).getD zeros

/-- The image `img0` with `bytes_used = 16`, a commit record at journal offset 8
and a record of unrecognized type `0xBEEF` at journal offset 12. -/
def imgCorrupt2 : Bytes :=
  let d := writeU32 img0 (1 * BLOCK_SIZE + 4) 16
  let d := writeBytes d (1 * BLOCK_SIZE + 8) 4 commit_record_bytes
  let d := writeBytes d (1 * BLOCK_SIZE + 12) 2 (fun i => byteOf 0xBEEF i)
  d

/-- The image `img0` with the root inode's `size` field set to 4096: the root
directory block already holds 128 entries of 32 bytes. -/
def imgFullDir : Bytes := writeU32 img0 (19 * BLOCK_SIZE + 4) 4096

/-- The journal region at `jbase` holds, starting at offset `pos` and
strictly before the recorded end `used`, the given list of records
described by their (type, size) header fields. -/
def layoutFrom (d : Bytes) (jbase used : Nat) : Nat → List (Nat × Nat) → Bool
  | _, [] => true
  | pos, (ty, sz) :: rest =>
    decide (pos < used) && decide (readU16 d (jbase + pos) = ty) &&
      decide (readU16 d (jbase + pos + 2) = sz) && decide (0 < sz) &&
      layoutFrom d jbase used (pos + sz) rest

/-- Journal offset reached after scanning past the given records. -/
def scanEnd : Nat → List (Nat × Nat) → Nat
  | pos, [] => pos
  | pos, (_, sz) :: rest => scanEnd (pos + sz) rest

/-- A small bitmap block with only bit 0 set (byte 0 holds value 1). -/
def bmap0 : Bytes := fun j => if j = 0 then 1 else 0

/-! ## Basic lemmas about the byte-level primitives -/

theorem writeBytes_outside (m : Bytes) (a len : Nat) (src : Bytes) (x : Nat)
    (h : x < a ∨ a + len ≤ x) : writeBytes m a len src x = m x := by
  unfold writeBytes
  rw [if_neg]
  omega

theorem writeBytes_inside (m : Bytes) (a len : Nat) (src : Bytes) (x : Nat)
    (h1 : a ≤ x) (h2 : x < a + len) :
    writeBytes m a len src x = src (x - a) % 256 := by
  unfold writeBytes
  rw [if_pos ⟨h1, h2⟩]

theorem readU32_lt (m : Bytes) (a : Nat) : readU32 m a < 4294967296 := by
  unfold readU32 readU8
  omega

theorem readU32_eq_of_agree (m m' : Bytes) (a : Nat)
    (h : ∀ i, i < 4 → m' (a + i) = m (a + i)) : readU32 m' a = readU32 m a := by
  have h0 := h 0 (by omega)
  have h1 := h 1 (by omega)
  have h2 := h 2 (by omega)
  have h3 := h 3 (by omega)
  simp only [Nat.add_zero] at h0
  unfold readU32 readU8
  rw [h0, h1, h2, h3]

theorem readU32_writeU32 (m : Bytes) (a v : Nat) :
    readU32 (writeU32 m a v) a = v % 4294967296 := by
  have h0 := writeBytes_inside m a 4 (fun i => byteOf v i) a (by omega) (by omega)
  have h1 := writeBytes_inside m a 4 (fun i => byteOf v i) (a + 1) (by omega) (by omega)
  have h2 := writeBytes_inside m a 4 (fun i => byteOf v i) (a + 2) (by omega) (by omega)
  have h3 := writeBytes_inside m a 4 (fun i => byteOf v i) (a + 3) (by omega) (by omega)
  unfold readU32 readU8 writeU32
  rw [h0, h1, h2, h3]
  simp only [byteOf, Nat.sub_self, Nat.add_sub_cancel_left, pow_zero, pow_one,
    Nat.div_one]
  norm_num
  omega

theorem writeU32_outside (m : Bytes) (a v x : Nat)
    (h : x < a ∨ a + 4 ≤ x) : writeU32 m a v x = m x := by
  unfold writeU32
  exact writeBytes_outside m a 4 _ x h

theorem write_journal_header_outside (d : Bytes) (jbase magic used x : Nat)
    (h : x < jbase ∨ jbase + 8 ≤ x) : write_journal_header d jbase magic used x = d x := by
  unfold write_journal_header
  rw [writeU32_outside _ _ _ _ (by omega), writeU32_outside _ _ _ _ (by omega)]

theorem write_journal_header_used (d : Bytes) (jbase magic used : Nat) :
    readU32 (write_journal_header d jbase magic used) (jbase + 4) = used % 4294967296 := by
  unfold write_journal_header
  rw [readU32_writeU32]

theorem write_journal_header_magic (d : Bytes) (jbase magic used : Nat) :
    readU32 (write_journal_header d jbase magic used) jbase = magic % 4294967296 := by
  unfold write_journal_header
  rw [readU32_eq_of_agree (writeU32 d jbase magic) _ jbase
    (fun i hi => writeU32_outside _ _ _ _ (by omega))]
  rw [readU32_writeU32]

/-! ## Lemmas about append_to_journal and init_journal_if_needed -/

theorem append_to_journal_fail (d : Bytes) (sb : Superblock) (record : Bytes)
    (size : Nat)
    (h : JOURNAL_BLOCKS * BLOCK_SIZE < readU32 d (sb.journal_block * BLOCK_SIZE + 4) + size) :
    append_to_journal d sb record size = (d, false) := by
  simp only [append_to_journal]
  rw [if_pos h]

theorem append_to_journal_fst_fail (d : Bytes) (sb : Superblock) (record : Bytes)
    (size : Nat)
    (h : JOURNAL_BLOCKS * BLOCK_SIZE < readU32 d (sb.journal_block * BLOCK_SIZE + 4) + size) :
    (append_to_journal d sb record size).1 = d := by
  rw [append_to_journal_fail d sb record size h]

theorem append_to_journal_fst_ok (d : Bytes) (sb : Superblock) (record : Bytes)
    (size : Nat)
    (h : readU32 d (sb.journal_block * BLOCK_SIZE + 4) + size ≤ JOURNAL_BLOCKS * BLOCK_SIZE) :
    (append_to_journal d sb record size).1 =
      write_journal_header
        (writeBytes d
          (sb.journal_block * BLOCK_SIZE + readU32 d (sb.journal_block * BLOCK_SIZE + 4))
          size record)
        (sb.journal_block * BLOCK_SIZE)
        (readU32 d (sb.journal_block * BLOCK_SIZE))
        (readU32 d (sb.journal_block * BLOCK_SIZE + 4) + size) := by
  simp only [append_to_journal]
  rw [if_neg (by omega)]

theorem append_to_journal_snd_ok (d : Bytes) (sb : Superblock) (record : Bytes)
    (size : Nat)
    (h : readU32 d (sb.journal_block * BLOCK_SIZE + 4) + size ≤ JOURNAL_BLOCKS * BLOCK_SIZE) :
    (append_to_journal d sb record size).2 = true := by
  simp only [append_to_journal]
  rw [if_neg (by omega)]

theorem append_to_journal_used_ok (d : Bytes) (sb : Superblock) (record : Bytes)
    (size : Nat)
    (h : readU32 d (sb.journal_block * BLOCK_SIZE + 4) + size ≤ JOURNAL_BLOCKS * BLOCK_SIZE) :
    readU32 (append_to_journal d sb record size).1 (sb.journal_block * BLOCK_SIZE + 4)
      = readU32 d (sb.journal_block * BLOCK_SIZE + 4) + size := by
  rw [append_to_journal_fst_ok d sb record size h]
  rw [write_journal_header_used]
  simp only [JOURNAL_BLOCKS, BLOCK_SIZE] at h ⊢
  omega

theorem append_to_journal_fst_outside (d : Bytes) (sb : Superblock) (record : Bytes)
    (size x : Nat)
    (hx : x < sb.journal_block * BLOCK_SIZE
      ∨ sb.journal_block * BLOCK_SIZE + JOURNAL_BLOCKS * BLOCK_SIZE ≤ x) :
    (append_to_journal d sb record size).1 x = d x := by
  by_cases h : readU32 d (sb.journal_block * BLOCK_SIZE + 4) + size ≤ JOURNAL_BLOCKS * BLOCK_SIZE
  · rw [append_to_journal_fst_ok d sb record size h]
    rw [write_journal_header_outside _ _ _ _ _
      (by simp only [JOURNAL_BLOCKS, BLOCK_SIZE] at hx ⊢; omega)]
    rw [writeBytes_outside _ _ _ _ _
      (by simp only [JOURNAL_BLOCKS, BLOCK_SIZE] at hx h ⊢; omega)]
  · rw [append_to_journal_fst_fail d sb record size (by omega)]

theorem init_journal_if_needed_noop (d : Bytes) (sb : Superblock)
    (h : readU32 d (sb.journal_block * BLOCK_SIZE) = JOURNAL_MAGIC) :
    init_journal_if_needed d sb = d := by
  simp only [init_journal_if_needed]
  rw [if_pos h]

theorem init_journal_if_needed_outside (d : Bytes) (sb : Superblock) (x : Nat)
    (hx : x < sb.journal_block * BLOCK_SIZE ∨ sb.journal_block * BLOCK_SIZE + 8 ≤ x) :
    init_journal_if_needed d sb x = d x := by
  simp only [init_journal_if_needed]
  split
  · rfl
  · exact write_journal_header_outside _ _ _ _ _ hx

/-! ## The replay loop never writes -/

theorem install_scan_fst (fuel : Nat) :
    ∀ (d : Bytes) (jbase used pos : Nat),
      (install_scan fuel d jbase used pos false).1 = d := by
  induction fuel with
  | zero => intro d jbase used pos; rfl
  | succ n ih =>
    intro d jbase used pos
    simp only [install_scan]
    split
    · split
      · rw [ih]; rfl
      · split
        · exact ih _ _ _ _
        · rfl
    · rfl

/-! ## C7: single-append contract -/

/-- C7: if `bytes_used + size` exceeds the 16-block journal capacity the
append fails with the disk unchanged; otherwise it succeeds, writes the
record bytes at offset `bytes_used` inside the journal region, persists a
header whose `bytes_used` has grown by exactly `size`, and changes no
other byte; in either case the step preserves the invariant
`bytes_used ≤ JOURNAL_BLOCKS * BLOCK_SIZE`. -/
theorem append_to_journal_spec (d : Bytes) (sb : Superblock) (record : Bytes)
    (size : Nat)
    (hrec : ∀ i, i < size → record i < 256)
    (hused8 : 8 ≤ readU32 d (sb.journal_block * BLOCK_SIZE + 4)) :
    (JOURNAL_BLOCKS * BLOCK_SIZE < readU32 d (sb.journal_block * BLOCK_SIZE + 4) + size →
      append_to_journal d sb record size = (d, false))
    ∧ (readU32 d (sb.journal_block * BLOCK_SIZE + 4) + size ≤ JOURNAL_BLOCKS * BLOCK_SIZE →
      (append_to_journal d sb record size).2 = true
      ∧ (∀ i, i < size →
          (append_to_journal d sb record size).1
            (sb.journal_block * BLOCK_SIZE + readU32 d (sb.journal_block * BLOCK_SIZE + 4) + i)
            = record i)
      ∧ readU32 (append_to_journal d sb record size).1 (sb.journal_block * BLOCK_SIZE + 4)
          = readU32 d (sb.journal_block * BLOCK_SIZE + 4) + size
      ∧ (∀ x, x < sb.journal_block * BLOCK_SIZE ∨ sb.journal_block * BLOCK_SIZE + 8 ≤ x →
          (x < sb.journal_block * BLOCK_SIZE + readU32 d (sb.journal_block * BLOCK_SIZE + 4)
            ∨ sb.journal_block * BLOCK_SIZE + readU32 d (sb.journal_block * BLOCK_SIZE + 4) + size ≤ x) →
          (append_to_journal d sb record size).1 x = d x))
    ∧ (readU32 d (sb.journal_block * BLOCK_SIZE + 4) ≤ JOURNAL_BLOCKS * BLOCK_SIZE →
      readU32 (append_to_journal d sb record size).1 (sb.journal_block * BLOCK_SIZE + 4)
        ≤ JOURNAL_BLOCKS * BLOCK_SIZE) := by
  refine ⟨fun h => append_to_journal_fail d sb record size h, fun h => ?_, fun h => ?_⟩
  · refine ⟨append_to_journal_snd_ok d sb record size h, ?_,
      append_to_journal_used_ok d sb record size h, ?_⟩
    · intro i hi
      rw [append_to_journal_fst_ok d sb record size h]
      rw [write_journal_header_outside _ _ _ _ _ (by omega)]
      rw [writeBytes_inside _ _ _ _ _ (by omega) (by omega)]
      have he : sb.journal_block * BLOCK_SIZE + readU32 d (sb.journal_block * BLOCK_SIZE + 4) + i
          - (sb.journal_block * BLOCK_SIZE + readU32 d (sb.journal_block * BLOCK_SIZE + 4)) = i := by
        omega
      rw [he, Nat.mod_eq_of_lt (hrec i hi)]
    · intro x hx1 hx2
      rw [append_to_journal_fst_ok d sb record size h]
      rw [write_journal_header_outside _ _ _ _ _ hx1]
      rw [writeBytes_outside _ _ _ _ _ (by omega)]
  · by_cases hc : readU32 d (sb.journal_block * BLOCK_SIZE + 4) + size ≤ JOURNAL_BLOCKS * BLOCK_SIZE
    · rw [append_to_journal_used_ok d sb record size hc]
      omega
    · rw [append_to_journal_fst_fail d sb record size (by omega)]
      exact h

/-- C7 witness: appending a 4-byte commit record to the fresh image
(`bytes_used = 8`) succeeds and grows `bytes_used` to 12. -/
theorem append_to_journal_spec_witness :
    (∀ i, i < 4 → commit_record_bytes i < 256)
    ∧ 8 ≤ readU32 img0 (sb0.journal_block * BLOCK_SIZE + 4)
    ∧ readU32 img0 (sb0.journal_block * BLOCK_SIZE + 4) + 4 ≤ JOURNAL_BLOCKS * BLOCK_SIZE
    ∧ (append_to_journal img0 sb0 commit_record_bytes 4).2 = true
    ∧ readU32 (append_to_journal img0 sb0 commit_record_bytes 4).1
        (sb0.journal_block * BLOCK_SIZE + 4)
        = readU32 img0 (sb0.journal_block * BLOCK_SIZE + 4) + 4 := by
  have h := append_to_journal_spec img0 sb0 commit_record_bytes 4
    (by decide) (by decide)
  have h2 := h.2.1 (by decide)
  exact ⟨by decide, by decide, by decide, h2.1, h2.2.2.1⟩

/-! ## C2: the literal install never writes the live filesystem region -/

/-- C2: whenever `cmd_install` completes, the resulting image agrees with
the input everywhere outside the 8-byte journal header (in particular on
every block of the live filesystem region): the `in_transaction` flag is
never set when a data record is read, so no data record is ever applied,
and the only persistent effect is the journal header being rewritten with
`bytes_used = 8` and the magic unchanged. -/
theorem cmd_install_no_live_writes (d : Bytes) (sb : Superblock) (d' : Bytes)
    (h : cmd_install d sb = some d') :
    (∀ x, x < sb.journal_block * BLOCK_SIZE ∨ sb.journal_block * BLOCK_SIZE + 8 ≤ x →
      d' x = d x)
    ∧ readU32 d' (sb.journal_block * BLOCK_SIZE + 4) = 8
    ∧ readU32 d' (sb.journal_block * BLOCK_SIZE) = JOURNAL_MAGIC := by
  simp only [cmd_install] at h
  by_cases hm : readU32 d (sb.journal_block * BLOCK_SIZE) = JOURNAL_MAGIC
  · rw [if_neg (not_not_intro hm)] at h
    by_cases hu : readU32 d (sb.journal_block * BLOCK_SIZE + 4) = JOURNAL_HEADER_SIZE
    · rw [if_pos hu] at h
      obtain rfl : d = d' := Option.some.inj h
      refine ⟨fun x _ => rfl, ?_, hm⟩
      simpa [JOURNAL_HEADER_SIZE] using hu
    · rw [if_neg hu] at h
      obtain rfl := (Option.some.inj h).symm
      rw [install_scan_fst]
      refine ⟨fun x hx => write_journal_header_outside _ _ _ _ _ hx, ?_, ?_⟩
      · rw [write_journal_header_used]; decide
      · rw [write_journal_header_magic, hm]; decide
  · rw [if_pos hm] at h
    exact absurd h (by simp)

/-- C2 witness: on the image holding one committed transaction, install
completes; the inode-bitmap block byte and the whole live region are
untouched and `bytes_used` is reset to 8. -/
theorem cmd_install_no_live_writes_witness :
    cmd_install d1 sb0 = some d1i
    ∧ d1i (17 * 4096) = d1 (17 * 4096)
    ∧ readU32 d1i (sb0.journal_block * BLOCK_SIZE + 4) = 8 := by
  have h := cmd_install_no_live_writes d1 sb0 d1i rfl
  exact ⟨rfl, h.1 (17 * 4096) (by decide), h.2.1⟩

/-! ## C5: create never writes outside the journal region -/

/-- C5: `cmd_create` (whether it succeeds, dies with no free inode, or
aborts on a full journal) changes no byte outside the journal region
`[journal_block * BLOCK_SIZE, journal_block * BLOCK_SIZE + 16 * BLOCK_SIZE)`;
in particular the inode bitmap, data bitmap, inode table and root
directory blocks are byte-for-byte unchanged. -/
theorem cmd_create_frame (d : Bytes) (sb : Superblock) (filename : List Nat)
    (now x : Nat)
    (hx : x < sb.journal_block * BLOCK_SIZE
      ∨ sb.journal_block * BLOCK_SIZE + JOURNAL_BLOCKS * BLOCK_SIZE ≤ x) :
    (cmd_create d sb filename now).1 x = d x := by
  have hA : ∀ (dd record : Bytes) (size : Nat),
      (append_to_journal dd sb record size).1 x = dd x :=
    fun dd record size => append_to_journal_fst_outside dd sb record size x hx
  have hI : ∀ dd : Bytes, init_journal_if_needed dd sb x = dd x :=
    fun dd => init_journal_if_needed_outside dd sb x
      (by simp only [JOURNAL_BLOCKS, BLOCK_SIZE] at hx ⊢; omega)
  simp only [cmd_create]
  split
  · exact hI d
  · split
    · simp only [hA, hI]
    · split
      · simp only [hA, hI]
      · split
        · simp only [hA, hI]
        · split
          · simp only [hA, hI]
          · split
            · simp only [hA, hI]
            · simp only [hA, hI]

/-- C5 witness: after `create foo.txt` on the fresh image the first byte
of the inode-bitmap block (block 17, outside the journal region) is
unchanged. -/
theorem cmd_create_frame_witness :
    (cmd_create img0 sb0 fooName 0).1 (17 * 4096) = img0 (17 * 4096) :=
  cmd_create_frame img0 sb0 fooName 0 (17 * 4096) (by decide)

/-! ## C1: the literal replay drops committed transactions -/

/-- C1: behavior of the code at the failing input.  After
`create foo.txt` on the fresh image the journal holds one complete
committed transaction: a data record at offset 8 targeting the
inode-bitmap block 17 whose payload has bits 0 and 1 set (byte value 3),
three further data records, and a commit record at offset 16424, with
`bytes_used = 16428`.  `cmd_install` completes, yet the inode-bitmap
block still holds its old byte 1 — the data records of the committed
transaction were never applied to the block store (the `in_transaction`
guard is never true), contradicting the claimed flush-on-commit replay. -/
theorem cmd_install_drops_committed_transaction :
    (cmd_create img0 sb0 fooName 0).2 = CreateStatus.ok
    ∧ readU16 d1 (4096 + 8) = REC_DATA
    ∧ readU32 d1 (4096 + 8 + 4) = 17
    ∧ readU8 d1 (4096 + 8 + 8) = 3
    ∧ readU16 d1 (4096 + 16424) = REC_COMMIT
    ∧ readU32 d1 (4096 + 4) = 16428
    ∧ cmd_install d1 sb0 = some d1i
    ∧ readU8 img0 (17 * 4096) = 1
    ∧ readU8 d1i (17 * 4096) = 1 :=
  ⟨by decide, by decide, by decide, by decide, by decide, by decide, rfl,
    by decide, by decide⟩

/-! ## C3: the create-then-install round trip fails on the code -/

/-- C3: behavior of the code at the failing input.  On the fresh image,
`create foo.txt` succeeds (choosing inode 1) and `install` completes and
resets `bytes_used` to 8, but none of the claimed round-trip effects on
the live filesystem are present: inode-bitmap bit 1 is still clear (the
block byte is still 1), the inode-table slot of inode 1 still has
type 0 (not 1 = file), the root directory block still has an all-zero
entry at index 0, and the root inode's size is still 0 (not 32). -/
theorem create_install_round_trip_fails :
    (cmd_create img0 sb0 fooName 0).2 = CreateStatus.ok
    ∧ cmd_install d1 sb0 = some d1i
    ∧ readU32 d1i (sb0.journal_block * BLOCK_SIZE + 4) = 8
    ∧ readU8 d1i (17 * 4096) = 1
    ∧ readU16 d1i (19 * 4096 + 128) = 0
    ∧ readU32 d1i (21 * 4096) = 0
    ∧ readU8 d1i (21 * 4096 + 4) = 0
    ∧ readU32 d1i (19 * 4096 + 4) = 0 :=
  ⟨by decide, rfl, by decide, by decide, by decide, by decide, by decide,
    by decide⟩

/-! ## C4: corruption during replay -/

/-- C4 counterexample: `imgCorrupt` has a valid journal magic,
`bytes_used = 12` and a single record of unrecognized type `0xBEEF` at
journal offset 8.  `cmd_install` stops scanning at that record, but then
still rewrites the journal header: `bytes_used` ends at 8, not at its
prior value 12 — the journal is not left unmodified. -/
theorem cmd_install_corruption_resets_cex :
    readU16 imgCorrupt (4096 + 8) = 0xBEEF
    ∧ readU32 imgCorrupt (4096 + 4) = 12
    ∧ cmd_install imgCorrupt sb0 = some imgCorruptAfter
    ∧ readU32 imgCorruptAfter (4096 + 4) = 8
    ∧ (8 : Nat) ≠ 12 :=
  ⟨by decide, by decide, rfl, by decide, by decide⟩

/-- The replay loop, started outside a transaction, scans past any run of
well-formed data/commit records without modifying the disk, and halts
with the corruption flag at the first record of unrecognized type. -/
theorem install_scan_stops_at_unknown (d : Bytes) (jbase used : Nat) :
    ∀ (rs : List (Nat × Nat)) (pos fuel : Nat),
      layoutFrom d jbase used pos rs = true →
      (∀ r ∈ rs, r.1 = REC_DATA ∨ r.1 = REC_COMMIT) →
      scanEnd pos rs < used →
      readU16 d (jbase + scanEnd pos rs) ≠ REC_DATA →
      readU16 d (jbase + scanEnd pos rs) ≠ REC_COMMIT →
      used ≤ fuel + pos →
      install_scan fuel d jbase used pos false = (d, true) := by
  intro rs
  induction rs with
  | nil =>
    intro pos fuel _ _ hend hbad1 hbad2 hfuel
    simp only [scanEnd] at hend hbad1 hbad2
    obtain ⟨f, rfl⟩ : ∃ f, fuel = f + 1 := ⟨fuel - 1, by omega⟩
    simp only [install_scan]
    rw [if_pos hend, if_neg hbad1, if_neg hbad2]
  | cons head tail ih =>
    intro pos fuel hlay htypes hend hbad1 hbad2 hfuel
    obtain ⟨ty, sz⟩ := head
    simp only [layoutFrom, Bool.and_eq_true, decide_eq_true_eq] at hlay
    obtain ⟨⟨⟨⟨hpos, hty⟩, hsz⟩, hszpos⟩, hrest⟩ := hlay
    obtain ⟨f, rfl⟩ : ∃ f, fuel = f + 1 := ⟨fuel - 1, by omega⟩
    have hend' : scanEnd (pos + sz) tail < used := hend
    have hbad1' : readU16 d (jbase + scanEnd (pos + sz) tail) ≠ REC_DATA := hbad1
    have hbad2' : readU16 d (jbase + scanEnd (pos + sz) tail) ≠ REC_COMMIT := hbad2
    have htail : ∀ r ∈ tail, r.1 = REC_DATA ∨ r.1 = REC_COMMIT :=
      fun r hr => htypes r (List.mem_cons_of_mem _ hr)
    simp only [install_scan]
    rw [if_pos hpos]
    rcases htypes (ty, sz) (List.mem_cons_self _ _) with h | h
    · replace h : ty = REC_DATA := h
      rw [if_pos (hty.trans h), hsz]
      exact ih (pos + sz) f hrest htail hend' hbad1' hbad2' (by omega)
    · replace h : ty = REC_COMMIT := h
      rw [if_neg (by rw [hty, h]; decide), if_pos (hty.trans h), hsz]
      exact ih (pos + sz) f hrest htail hend' hbad1' hbad2' (by omega)

/-- C4 (amended): on a journal with valid magic, `bytes_used ≠ 8`, a run
of well-formed data/commit records and then, strictly before
`bytes_used`, a record of unrecognized type, the replay loop stops
scanning exactly at that record and reports corruption, having applied
nothing (the disk is untouched by the loop, so every transaction flushed
before that point — none, in the literal code — remains as it was); but
`cmd_install` then still rewrites the journal header: the final image is
the input with `bytes_used` reset to 8 (all other bytes unchanged),
rather than the journal being left unmodified. -/
theorem cmd_install_corruption_stops_and_resets (d : Bytes) (sb : Superblock)
    (rs : List (Nat × Nat))
    (hmagic : readU32 d (sb.journal_block * BLOCK_SIZE) = JOURNAL_MAGIC)
    (hne : readU32 d (sb.journal_block * BLOCK_SIZE + 4) ≠ 8)
    (hlay : layoutFrom d (sb.journal_block * BLOCK_SIZE)
        (readU32 d (sb.journal_block * BLOCK_SIZE + 4)) 8 rs = true)
    (htypes : ∀ r ∈ rs, r.1 = REC_DATA ∨ r.1 = REC_COMMIT)
    (hend : scanEnd 8 rs < readU32 d (sb.journal_block * BLOCK_SIZE + 4))
    (hbad1 : readU16 d (sb.journal_block * BLOCK_SIZE + scanEnd 8 rs) ≠ REC_DATA)
    (hbad2 : readU16 d (sb.journal_block * BLOCK_SIZE + scanEnd 8 rs) ≠ REC_COMMIT) :
    install_scan (readU32 d (sb.journal_block * BLOCK_SIZE + 4)) d
        (sb.journal_block * BLOCK_SIZE) (readU32 d (sb.journal_block * BLOCK_SIZE + 4)) 8 false
      = (d, true)
    ∧ cmd_install d sb
      = some (write_journal_header d (sb.journal_block * BLOCK_SIZE) JOURNAL_MAGIC 8)
    ∧ (∀ x, x < sb.journal_block * BLOCK_SIZE ∨ sb.journal_block * BLOCK_SIZE + 8 ≤ x →
        write_journal_header d (sb.journal_block * BLOCK_SIZE) JOURNAL_MAGIC 8 x = d x)
    ∧ readU32 (write_journal_header d (sb.journal_block * BLOCK_SIZE) JOURNAL_MAGIC 8)
        (sb.journal_block * BLOCK_SIZE + 4) = 8 := by
  have hscan := install_scan_stops_at_unknown d (sb.journal_block * BLOCK_SIZE)
    (readU32 d (sb.journal_block * BLOCK_SIZE + 4)) rs 8
    (readU32 d (sb.journal_block * BLOCK_SIZE + 4)) hlay htypes hend hbad1 hbad2
    (by omega)
  have hne' : readU32 d (sb.journal_block * BLOCK_SIZE + 4) ≠ JOURNAL_HEADER_SIZE := by
    simpa [JOURNAL_HEADER_SIZE] using hne
  refine ⟨hscan, ?_, fun x hx => write_journal_header_outside _ _ _ _ _ hx, ?_⟩
  · simp only [cmd_install]
    rw [if_neg (not_not_intro hmagic), if_neg hne']
    simp only [JOURNAL_HEADER_SIZE]
    rw [hscan, hmagic]
  · rw [write_journal_header_used]

/-- C4 witness: `imgCorrupt2` holds a commit record at journal offset 8
and a record of unknown type `0xBEEF` at offset 12, with
`bytes_used = 16`; install stops there, applies nothing, and resets the
header to `bytes_used = 8`. -/
theorem cmd_install_corruption_stops_and_resets_witness :
    readU16 imgCorrupt2 (sb0.journal_block * BLOCK_SIZE + scanEnd 8 [(REC_COMMIT, 4)]) = 0xBEEF
    ∧ readU32 imgCorrupt2 (sb0.journal_block * BLOCK_SIZE + 4) = 16
    ∧ cmd_install imgCorrupt2 sb0
      = some (write_journal_header imgCorrupt2 (sb0.journal_block * BLOCK_SIZE) JOURNAL_MAGIC 8)
    ∧ readU32 (write_journal_header imgCorrupt2 (sb0.journal_block * BLOCK_SIZE) JOURNAL_MAGIC 8)
        (sb0.journal_block * BLOCK_SIZE + 4) = 8 := by
  have h := cmd_install_corruption_stops_and_resets imgCorrupt2 sb0 [(REC_COMMIT, 4)]
    (by decide) (by decide) (by decide) (by decide) (by decide) (by decide) (by decide)
  exact ⟨by decide, by decide, h.2.1, h.2.2.2⟩

/-! ## Unconditional forms of the append lemmas -/

theorem append_to_journal_snd (d : Bytes) (sb : Superblock) (record : Bytes)
    (size : Nat) :
    (append_to_journal d sb record size).2
      = decide (readU32 d (sb.journal_block * BLOCK_SIZE + 4) + size
          ≤ JOURNAL_BLOCKS * BLOCK_SIZE) := by
  by_cases h : readU32 d (sb.journal_block * BLOCK_SIZE + 4) + size
      ≤ JOURNAL_BLOCKS * BLOCK_SIZE
  · rw [append_to_journal_snd_ok d sb record size h]
    exact (decide_eq_true h).symm
  · rw [append_to_journal_fail d sb record size (by omega)]
    exact (decide_eq_false h).symm

theorem append_to_journal_used_ite (d : Bytes) (sb : Superblock) (record : Bytes)
    (size : Nat) :
    readU32 (append_to_journal d sb record size).1 (sb.journal_block * BLOCK_SIZE + 4)
      = if readU32 d (sb.journal_block * BLOCK_SIZE + 4) + size
            ≤ JOURNAL_BLOCKS * BLOCK_SIZE
        then readU32 d (sb.journal_block * BLOCK_SIZE + 4) + size
        else readU32 d (sb.journal_block * BLOCK_SIZE + 4) := by
  by_cases h : readU32 d (sb.journal_block * BLOCK_SIZE + 4) + size
      ≤ JOURNAL_BLOCKS * BLOCK_SIZE
  · rw [if_pos h, append_to_journal_used_ok d sb record size h]
  · rw [if_neg h, append_to_journal_fst_fail d sb record size (by omega)]

/-! ## C6: capacity exhaustion leaves a partially appended attempt -/

/-- C6 counterexample: starting from the fresh image, three `create`
calls succeed, filling the journal to `bytes_used = 49268`; a whole
further transaction (16420 bytes) no longer fits.  The fourth `create`
does fail with a capacity error, but `bytes_used` ends at 61580, not at
49268: the three data records that still fit were appended and remain in
the journal as an uncommitted tail. -/
theorem cmd_create_capacity_cex :
    (cmd_create d3 sb0 fooName 0).2 = CreateStatus.journalFull
    ∧ readU32 d3 (4096 + 4) = 49268
    ∧ readU32 (cmd_create d3 sb0 fooName 0).1 (4096 + 4) = 61580
    ∧ (61580 : Nat) ≠ 49268 :=
  ⟨by decide, by decide, by decide, by decide⟩

/-- C6 (amended): once the journal can no longer hold a whole
four-data-record-plus-commit transaction (16420 bytes), the next create
call fails with a capacity error; the append that overflows leaves
`bytes_used` unchanged, but the data records of the aborted attempt that
did fit were already appended and remain in the journal as an
uncommitted tail: `bytes_used` ends at its prior value plus 4104 times
the number of the attempt's four data records that fit in the remaining
capacity, rather than exactly at its prior value. -/
theorem cmd_create_journal_full_tail (d : Bytes) (sb : Superblock)
    (filename : List Nat) (now i : Nat)
    (hmagic : readU32 d (sb.journal_block * BLOCK_SIZE) = JOURNAL_MAGIC)
    (hfree : bitmap_find_free (read_block d sb.inode_bitmap) 64 = some i)
    (hroom : JOURNAL_BLOCKS * BLOCK_SIZE
      < readU32 d (sb.journal_block * BLOCK_SIZE + 4) + 16420) :
    (cmd_create d sb filename now).2 = CreateStatus.journalFull
    ∧ readU32 (cmd_create d sb filename now).1 (sb.journal_block * BLOCK_SIZE + 4)
      = readU32 d (sb.journal_block * BLOCK_SIZE + 4)
        + 4104 * min 4 ((JOURNAL_BLOCKS * BLOCK_SIZE
            - readU32 d (sb.journal_block * BLOCK_SIZE + 4)) / 4104) := by
  simp only [cmd_create, DATA_RECORD_SIZE, COMMIT_RECORD_SIZE,
    init_journal_if_needed_noop d sb hmagic, hfree]
  generalize data_record_bytes sb.inode_bitmap
    (bitmap_set (read_block d sb.inode_bitmap) i) = R1
  generalize data_record_bytes (sb.inode_start + i / 32)
    (writeBytes (read_block d (sb.inode_start + i / 32)) (i % 32 * INODE_SIZE)
      INODE_SIZE (inode_bytes 1 1 0 (fun _ => 0) now now)) = R2
  generalize data_record_bytes (readU32 (read_block d sb.inode_start) 8)
    (writeBytes (read_block d (readU32 (read_block d sb.inode_start) 8))
      (readU32 (read_block d sb.inode_start) 4 / 32 * 32) 32
      (dirent_bytes i filename)) = R3
  generalize data_record_bytes sb.inode_start
    (writeU32 (writeU32 (read_block d sb.inode_start) 4
      (readU32 (read_block d sb.inode_start) 4 + 32)) 44 now) = R4
  by_cases h1 : readU32 d (sb.journal_block * BLOCK_SIZE + 4) + 4104
      ≤ JOURNAL_BLOCKS * BLOCK_SIZE
  case neg =>
    rw [append_to_journal_fail d sb R1 4104 (by omega), if_pos rfl]
    refine ⟨rfl, ?_⟩
    show readU32 d (sb.journal_block * BLOCK_SIZE + 4) = _
    omega
  case pos =>
  rw [append_to_journal_snd_ok d sb R1 4104 h1,
    if_neg (show ¬(true = false) by decide)]
  set dA := (append_to_journal d sb R1 4104).1 with hdA
  have u1 := append_to_journal_used_ok d sb R1 4104 h1
  rw [← hdA] at u1
  by_cases h2 : readU32 d (sb.journal_block * BLOCK_SIZE + 4) + 8208
      ≤ JOURNAL_BLOCKS * BLOCK_SIZE
  case neg =>
    rw [append_to_journal_fail dA sb R2 4104 (by rw [u1]; omega), if_pos rfl]
    refine ⟨rfl, ?_⟩
    simp only [u1]
    omega
  case pos =>
  rw [append_to_journal_snd_ok dA sb R2 4104 (by rw [u1]; omega),
    if_neg (show ¬(true = false) by decide)]
  set dB := (append_to_journal dA sb R2 4104).1 with hdB
  have u2 := append_to_journal_used_ok dA sb R2 4104 (by rw [u1]; omega)
  rw [← hdB, u1] at u2
  by_cases h3 : readU32 d (sb.journal_block * BLOCK_SIZE + 4) + 12312
      ≤ JOURNAL_BLOCKS * BLOCK_SIZE
  case neg =>
    rw [append_to_journal_fail dB sb R3 4104 (by rw [u2]; omega), if_pos rfl]
    refine ⟨rfl, ?_⟩
    simp only [u2]
    omega
  case pos =>
  rw [append_to_journal_snd_ok dB sb R3 4104 (by rw [u2]; omega),
    if_neg (show ¬(true = false) by decide)]
  set dC := (append_to_journal dB sb R3 4104).1 with hdC
  have u3 := append_to_journal_used_ok dB sb R3 4104 (by rw [u2]; omega)
  rw [← hdC, u2] at u3
  by_cases h4 : readU32 d (sb.journal_block * BLOCK_SIZE + 4) + 16416
      ≤ JOURNAL_BLOCKS * BLOCK_SIZE
  case neg =>
    rw [append_to_journal_fail dC sb R4 4104 (by rw [u3]; omega), if_pos rfl]
    refine ⟨rfl, ?_⟩
    simp only [u3]
    omega
  case pos =>
  rw [append_to_journal_snd_ok dC sb R4 4104 (by rw [u3]; omega),
    if_neg (show ¬(true = false) by decide)]
  set dD := (append_to_journal dC sb R4 4104).1 with hdD
  have u4 := append_to_journal_used_ok dC sb R4 4104 (by rw [u3]; omega)
  rw [← hdD, u3] at u4
  rw [append_to_journal_fail dD sb commit_record_bytes 4 (by rw [u4]; omega),
    if_pos rfl]
  refine ⟨rfl, ?_⟩
  simp only [u4]
  omega

/-- C6 witness: the amended statement applied to the concrete image `d3`
(three transactions in the journal, `bytes_used = 49268`). -/
theorem cmd_create_journal_full_tail_witness :
    readU32 d3 (sb0.journal_block * BLOCK_SIZE) = JOURNAL_MAGIC
    ∧ bitmap_find_free (read_block d3 sb0.inode_bitmap) 64 = some 1
    ∧ JOURNAL_BLOCKS * BLOCK_SIZE
      < readU32 d3 (sb0.journal_block * BLOCK_SIZE + 4) + 16420
    ∧ (cmd_create d3 sb0 fooName 0).2 = CreateStatus.journalFull
    ∧ readU32 (cmd_create d3 sb0 fooName 0).1 (sb0.journal_block * BLOCK_SIZE + 4)
      = readU32 d3 (sb0.journal_block * BLOCK_SIZE + 4)
        + 4104 * min 4 ((JOURNAL_BLOCKS * BLOCK_SIZE
            - readU32 d3 (sb0.journal_block * BLOCK_SIZE + 4)) / 4104) := by
  have h := cmd_create_journal_full_tail d3 sb0 fooName 0 1
    (by decide) (by decide) (by decide)
  exact ⟨by decide, by decide, by decide, h.1, h.2⟩

/-! ## C8: no directory-capacity check before the dirent write -/

/-- C8: behavior of the code at the failing input.  With the root
inode's size already 4096 (128 dirents of 32 bytes fill the root
directory block), `cmd_create` does not fail: it completes with status
ok, although the dirent slot it computes, `(size / 32) * 32 = 4096`,
starts at the end of the 4096-byte block, so the 32-byte entry lies
entirely past the one-block boundary (an out-of-bounds buffer write in
the C source); no bound check rejects the operation. -/
theorem cmd_create_no_dir_bound_check :
    readU32 (read_block imgFullDir sb0.inode_start) 4 = 4096
    ∧ (cmd_create imgFullDir sb0 fooName 0).2 = CreateStatus.ok
    ∧ readU32 (read_block imgFullDir sb0.inode_start) 4 / 32 * 32 + 32 > BLOCK_SIZE :=
  ⟨by decide, by decide, by decide⟩

/-! ## C9: the bitmap allocator returns the lowest clear bit -/

/-- Characterization of the `bitmap_find_free` scan loop: a returned
index is in range, its bit is clear, and every bit scanned before it is
set; a `none` result means every scanned bit is set. -/
theorem bitmap_find_free_aux_spec (bmap : Bytes) :
    ∀ (remaining i : Nat),
      (∀ j, bitmap_find_free_aux bmap i remaining = some j →
        i ≤ j ∧ j < i + remaining ∧ bmap (j / 8) &&& (1 <<< (j % 8)) = 0 ∧
        ∀ k, i ≤ k → k < j → bmap (k / 8) &&& (1 <<< (k % 8)) ≠ 0)
      ∧ (bitmap_find_free_aux bmap i remaining = none →
        ∀ k, i ≤ k → k < i + remaining → bmap (k / 8) &&& (1 <<< (k % 8)) ≠ 0) := by
  intro remaining
  induction remaining with
  | zero =>
    intro i
    exact ⟨fun j h => by simp [bitmap_find_free_aux] at h,
      fun _ k hk1 hk2 => by omega⟩
  | succ n ih =>
    intro i
    constructor
    · intro j h
      simp only [bitmap_find_free_aux] at h
      split at h
      case isTrue hc =>
        obtain rfl := Option.some.inj h
        exact ⟨Nat.le_refl _, by omega, hc, fun k hk1 hk2 => by omega⟩
      case isFalse hc =>
        obtain ⟨hj1, hj2, hj3, hj4⟩ := (ih (i + 1)).1 j h
        refine ⟨by omega, by omega, hj3, ?_⟩
        intro k hk1 hk2
        rcases Nat.eq_or_lt_of_le hk1 with rfl | hk
        · exact hc
        · exact hj4 k (by omega) hk2
    · intro h k hk1 hk2
      simp only [bitmap_find_free_aux] at h
      split at h
      case isTrue hc => exact absurd h (by simp)
      case isFalse hc =>
        rcases Nat.eq_or_lt_of_le hk1 with rfl | hk
        · exact hc
        · exact (ih (i + 1)).2 h k (by omega) (by omega)

theorem land_shift_eq_zero_iff (n k : Nat) :
    n &&& (1 <<< k) = 0 ↔ n.testBit k = false := by
  rw [Nat.one_shiftLeft, Nat.and_two_pow]
  cases h : n.testBit k
  · simp
  · simp [Nat.pow_eq_zero]

theorem bitmap_set_test_self (bmap : Bytes) (i : Nat) :
    bitmap_set bmap i (i / 8) &&& (1 <<< (i % 8)) ≠ 0 := by
  intro h
  rw [land_shift_eq_zero_iff] at h
  unfold bitmap_set at h
  rw [if_pos rfl, Nat.testBit_or, Nat.one_shiftLeft,
    Nat.testBit_two_pow_self] at h
  simp at h

theorem bitmap_set_test_other (bmap : Bytes) (i k : Nat) (hk : k ≠ i) :
    (bitmap_set bmap i (k / 8) &&& (1 <<< (k % 8)) = 0)
      ↔ (bmap (k / 8) &&& (1 <<< (k % 8)) = 0) := by
  unfold bitmap_set
  by_cases hb : k / 8 = i / 8
  · rw [if_pos hb, hb, land_shift_eq_zero_iff, land_shift_eq_zero_iff,
      Nat.testBit_or]
    have hne : i % 8 ≠ k % 8 := by omega
    rw [Nat.one_shiftLeft, Nat.testBit_two_pow_of_ne hne]
    simp
  · rw [if_neg hb]

/-- C9: `bitmap_find_free` scans bits `0..max` in ascending order and
returns the lowest-index clear bit (`none` when every bit in range is
set); and after setting the returned bit, a re-scan returns the next
lowest clear bit: a higher index whose bit is clear while every other
lower bit is set. -/
theorem bitmap_find_free_spec (bmap : Bytes) (max : Nat) :
    (∀ i, bitmap_find_free bmap max = some i →
      i < max ∧ bmap (i / 8) &&& (1 <<< (i % 8)) = 0 ∧
      ∀ j, j < i → bmap (j / 8) &&& (1 <<< (j % 8)) ≠ 0)
    ∧ (bitmap_find_free bmap max = none →
      ∀ j, j < max → bmap (j / 8) &&& (1 <<< (j % 8)) ≠ 0)
    ∧ (∀ i j, bitmap_find_free bmap max = some i →
      bitmap_find_free (bitmap_set bmap i) max = some j →
      i < j ∧ j < max ∧ bmap (j / 8) &&& (1 <<< (j % 8)) = 0 ∧
      ∀ k, k < j → k ≠ i → bmap (k / 8) &&& (1 <<< (k % 8)) ≠ 0) := by
  have base := bitmap_find_free_aux_spec bmap max 0
  refine ⟨?_, ?_, ?_⟩
  · intro i h
    obtain ⟨_, h2, h3, h4⟩ := base.1 i h
    exact ⟨by omega, h3, fun j hj => h4 j (by omega) hj⟩
  · intro h j hj
    exact base.2 h j (by omega) (by omega)
  · intro i j hi hj
    obtain ⟨_, hi2, hi3, hi4⟩ := base.1 i hi
    obtain ⟨_, hj2, hj3, hj4⟩ :=
      (bitmap_find_free_aux_spec (bitmap_set bmap i) max 0).1 j hj
    have hji : j ≠ i := by
      intro he
      rw [he] at hj3
      exact bitmap_set_test_self bmap i hj3
    have hjold : bmap (j / 8) &&& (1 <<< (j % 8)) = 0 :=
      (bitmap_set_test_other bmap i j hji).1 hj3
    have hij : i < j := by
      rcases Nat.lt_trichotomy i j with h | h | h
      · exact h
      · exact absurd h.symm hji
      · exact absurd hjold (hi4 j (by omega) h)
    refine ⟨hij, by omega, hjold, ?_⟩
    intro k hk hki hzero
    exact hj4 k (by omega) hk ((bitmap_set_test_other bmap i k hki).2 hzero)

/-- C9 witness: on the bitmap with only bit 0 set, the scan returns
bit 1; after marking bit 1 a re-scan returns bit 2, the next lowest. -/
theorem bitmap_find_free_spec_witness :
    bitmap_find_free bmap0 64 = some 1
    ∧ bitmap_find_free (bitmap_set bmap0 1) 64 = some 2
    ∧ 1 < 2 ∧ (2 : Nat) < 64 ∧ bmap0 (2 / 8) &&& (1 <<< (2 % 8)) = 0 := by
  have h := (bitmap_find_free_spec bmap0 64).2.2 1 2 (by decide) (by decide)
  exact ⟨by decide, by decide, h.1, h.2.1, h.2.2.1⟩

/-! ## C10: dirent name truncation -/

/-- C10: the 28-byte dirent name field stores, for a filename of length
at least 28, exactly the first 27 characters followed by a NUL at
index 27; for a filename of length under 28, the name verbatim with
every remaining byte of the field zero. -/
theorem dirent_name_truncation (filename : List Nat)
    (hc : ∀ c ∈ filename, c < 256) :
    (28 ≤ filename.length →
      (∀ i, i < 27 → dirent_name_bytes filename i = filename.getD i 0)
      ∧ dirent_name_bytes filename 27 = 0)
    ∧ (filename.length < 28 →
      (∀ i, i < filename.length → dirent_name_bytes filename i = filename.getD i 0)
      ∧ (∀ i, filename.length ≤ i → i < 28 → dirent_name_bytes filename i = 0)) := by
  have hgd : ∀ i, i < filename.length → filename.getD i 0 % 256 = filename.getD i 0 := by
    intro i hi
    rw [List.getD_eq_getElem?_getD, List.getElem?_eq_getElem hi, Option.getD_some]
    exact Nat.mod_eq_of_lt (hc _ (List.getElem_mem hi))
  have hgd0 : ∀ i, filename.length ≤ i → filename.getD i 0 = 0 := by
    intro i hi
    rw [List.getD_eq_getElem?_getD, List.getElem?_eq_none hi]
    rfl
  constructor
  · intro hlen
    constructor
    · intro i hi
      unfold dirent_name_bytes
      rw [if_pos (by simp only [NAME_LEN]; omega)]
      exact hgd i (by omega)
    · unfold dirent_name_bytes
      rw [if_neg (by simp only [NAME_LEN]; omega)]
  · intro hlen
    constructor
    · intro i hi
      unfold dirent_name_bytes
      rw [if_pos (by simp only [NAME_LEN]; omega)]
      exact hgd i hi
    · intro i hi1 hi2
      unfold dirent_name_bytes
      split
      · rw [hgd0 i hi1]
      · rfl

/-- C10 witness: the 30-character `longName` is cut to 27 characters
plus a NUL at index 27; the 7-character `fooName` is stored verbatim
with the tail of the field zeroed. -/
theorem dirent_name_truncation_witness :
    longName.length = 30
    ∧ dirent_name_bytes longName 26 = longName.getD 26 0
    ∧ dirent_name_bytes longName 27 = 0
    ∧ fooName.length = 7
    ∧ dirent_name_bytes fooName 3 = fooName.getD 3 0
    ∧ dirent_name_bytes fooName 10 = 0 := by
  have h1 := (dirent_name_truncation longName (by decide)).1 (by decide)
  have h2 := (dirent_name_truncation fooName (by decide)).2 (by decide)
  exact ⟨by decide, h1.1 26 (by decide), h1.2, by decide, h2.1 3 (by decide),
    h2.2 10 (by decide) (by decide)⟩
